import Mathlib

/-!
Shallow embedding of the project-allocation program (alocare.py).

The program reads a table of teams (column Echipa) and raw comma-separated
preference strings (column Optiuni), derives per-team group ids and up to
three deduplicated domain tokens, runs three allocation rounds with
group-scoped deterministic random tie-breaking, cascades preferences
between rounds, and finally maps each allocated domain back to an original
preference string as the project theme.

Tables are lists of rows; the pandas RangeIndex is modelled by list
positions.  The numpy per-round random generator is modelled as a family
of streams indexed by seed: a value of type Nat → Nat → Nat maps the
number of draws consumed so far and the exclusive upper bound to the
drawn value (clamped into range by a modulus where it is used).
-/

/-- Base seed from the source: SEED = 19032025. -/
def SEED : Nat := 19032025

/-- The fallback theme string used by the source (De alocat manual). -/
def manualTheme : String := "De alocat manual"

/-- One row of the working table, with the columns the source creates. -/
structure Row where
  echipa : String
  grupa : String
  d1 : String
  d2 : String
  d3 : String
  domenii : List String
  alocare : String
  runda : String
  tema_proiect : String
deriving DecidableEq, Inhabited

/-- One row of the raw input table: team name and raw preference string
(a missing Optiuni cell is the empty string, as after fillna). -/
structure RawRow where
  echipa : String
  optiuni : String
deriving DecidableEq, Inhabited

/-- The three preference columns d1, d2, d3 that a round can consume. -/
inductive Col where
  | c1 : Col
  | c2 : Col
  | c3 : Col
deriving DecidableEq, Inhabited

/-- Column projection for a row. -/
def getCol (r : Row) : Col → String
  | Col.c1 => r.d1
  | Col.c2 => r.d2
  | Col.c3 => r.d3

/-- Split a character list at every occurrence of a separator character,
keeping empty segments, as Python str.split does on a single-character
separator (the empty input yields one empty segment). -/
def splitChars (sep : Char) : List Char → List (List Char)
  | [] => [[]]
  | c :: cs =>
    if c = sep then [] :: splitChars sep cs
    else
      match splitChars sep cs with
      | [] => [[c]]
      | p :: ps => (c :: p) :: ps

/-- The part of a string before the first hyphen, as split with
maxsplit 1 followed by taking the first piece. -/
def prefixTok (s : String) : String :=
  String.mk (s.data.takeWhile (fun c => c ≠ '-'))

/-- The group id of a team: the first character of the segment of the
team name preceding the first hyphen (empty when that segment is empty). -/
def grupaOf (echipa : String) : String :=
  String.mk ((echipa.data.takeWhile (fun c => c ≠ '-')).take 1)

/-- The cleaned preference items of a raw Optiuni cell: spaces removed,
then split at commas (column domenii in the source). -/
def parsedParts (optiuni : String) : List String :=
  (splitChars ',' (optiuni.data.filter (fun c => c ≠ ' '))).map String.mk

/-- The duplicate-clearing step of the preprocessor on the three parsed
domain tokens: clear d3 when it repeats d1 or d2 or is empty, then move
d3 into d2 when d2 repeats d1 or is empty. -/
def dedupTriple (t1 t2 t3 : String) : String × String × String :=
  if t2 = t1 ∨ t2 = "" then
    (t1, if t3 = t1 ∨ t3 = t2 ∨ t3 = "" then "" else t3, "")
  else
    (t1, t2, if t3 = t1 ∨ t3 = t2 ∨ t3 = "" then "" else t3)

/-- Preprocess one input row: derive the group id, the cleaned preference
items, the three deduplicated domain tokens, and the empty-initialized
allocation columns. -/
def preprocess_row (raw : RawRow) : Row :=
  let parts := parsedParts raw.optiuni
  let p1 := prefixTok (parts.getD 0 "")
  let p2 := prefixTok (parts.getD 1 "")
  let p3 := prefixTok (parts.getD 2 "")
  let t := dedupTriple p1 p2 p3
  { echipa := raw.echipa
    grupa := grupaOf raw.echipa
    d1 := t.1
    d2 := t.2.1
    d3 := t.2.2
    domenii := parts
    alocare := ""
    runda := ""
    tema_proiect := "" }

/-- Preprocess the whole input table. -/
def preprocess_dataframe (raw : List RawRow) : List Row :=
  raw.map preprocess_row

/-- Pair every row with its position, starting at a given offset
(the RangeIndex of the table). -/
def enumRows : Nat → List Row → List (Nat × Row)
  | _, [] => []
  | n, r :: rs => (n, r) :: enumRows (n + 1) rs

/-- Whether some already-allocated row of the table puts domain d in the
claimed set of group g (the allocated_dict lookup of the source). -/
def claimedB (df : List Row) (g d : String) : Bool :=
  df.any (fun r => r.grupa == g && r.alocare == d && !(r.alocare == ""))

/-- Whether group g has any allocated row (the group key being present
in allocated_dict). -/
def groupHasAlloc (df : List Row) (g : String) : Bool :=
  df.any (fun r => r.grupa == g && !(r.alocare == ""))

/-- The candidate rows of a round: unallocated rows with a non-empty
value in the preference column of the round, with their positions. -/
def candidatesOf (df : List Row) (col : Col) : List (Nat × Row) :=
  (enumRows 0 df).filter (fun p => p.2.alocare == "" && !(getCol p.2 col == ""))

/-- The candidate rows of the (g, d) partition, in table order. -/
def partRows (df : List Row) (col : Col) (g d : String) : List (Nat × Row) :=
  (candidatesOf df col).filter (fun p => p.2.grupa == g && getCol p.2 col == d)

/-- Ordering of (group, domain) keys used by the groupby over the
candidates: by group, then by domain. -/
def keyLe (a b : String × String) : Bool :=
  match compare a.1 b.1 with
  | Ordering.lt => true
  | Ordering.eq => !(compare a.2 b.2 == Ordering.gt)
  | Ordering.gt => false

/-- Insertion into a list sorted by a boolean ordering. -/
def insertLe {α : Type} (le : α → α → Bool) (x : α) : List α → List α
  | [] => [x]
  | y :: ys => if le x y then x :: y :: ys else y :: insertLe le x ys

/-- Insertion sort by a boolean ordering. -/
def sortLe {α : Type} (le : α → α → Bool) : List α → List α
  | [] => []
  | x :: xs => insertLe le x (sortLe le xs)

/-- The distinct (group, domain) keys of the candidate partition of a
round, in the sorted order the groupby iterates them. -/
def keysOf (df : List Row) (col : Col) : List (String × String) :=
  sortLe keyLe (((candidatesOf df col).map (fun p => (p.2.grupa, getCol p.2 col))).dedup)

/-- The partition scan of one round.  Arguments: the random stream of the
round, the table at the start of the round, the preference column, the
remaining keys, the (group, domain) pairs claimed earlier in this scan,
and the number of random draws consumed so far.  Returns the list of
(position, domain) picks and the final draw count.  A partition whose
domain the group already claims is skipped; a singleton partition is
allocated without consuming a draw; a larger partition consumes one draw
to select the team. -/
def scanAux (rng : Nat → Nat → Nat) (df : List Row) (col : Col) :
    List (String × String) → List (String × String) → Nat → List (Nat × String) × Nat
  | [], _, k => ([], k)
  | (g, d) :: ks, extra, k =>
    if claimedB df g d || extra.contains (g, d) then
      scanAux rng df col ks extra k
    else
      match partRows df col g d with
      | [] => scanAux rng df col ks extra k
      | [q] =>
        let rest := scanAux rng df col ks ((g, d) :: extra) k
        ((q.1, d) :: rest.1, rest.2)
      | q :: q2 :: qs =>
        let part := q :: q2 :: qs
        let chosen := part.getD (rng k part.length % part.length) q
        let rest := scanAux rng df col ks ((g, d) :: extra) (k + 1)
        ((chosen.1, d) :: rest.1, rest.2)

/-- Write one allocation into the table: set alocare and runda of the row
at the given position. -/
def setAlloc : List Row → Nat → String → String → List Row
  | [], _, _, _ => []
  | r :: rs, 0, d, rd => { r with alocare := d, runda := rd } :: rs
  | r :: rs, Nat.succ n, d, rd => r :: setAlloc rs n d rd

/-- Apply the picks of a round to the table, recording the round number
as a string in runda. -/
def applyPicks (df : List Row) (picks : List (Nat × String)) (rd : String) : List Row :=
  picks.foldl (fun t p => setAlloc t p.1 p.2 rd) df

/-- One allocation round: if there are no candidates return the table
unchanged with count zero, otherwise scan the sorted candidate
partitions and apply the picks. -/
def allocate_round (rng : Nat → Nat → Nat) (df : List Row) (col : Col) (round_num : Nat) :
    List Row × Nat :=
  if (candidatesOf df col).isEmpty then (df, 0)
  else
    let s := scanAux rng df col (keysOf df col) [] 0
    (applyPicks df s.1 (toString round_num), s.1.length)

/-- The preference update of one row when preparing round 2, given the
whole table the claimed sets are computed from. -/
def updateRow2 (df : List Row) (row : Row) : Row :=
  if !(groupHasAlloc df row.grupa) then row
  else if claimedB df row.grupa row.d2 then
    if !(row.d3 == "") && !(claimedB df row.grupa row.d3) then
      { row with d2 := row.d3, d3 := "" }
    else
      { row with d2 := "", d3 := "" }
  else row

/-- The preference update of one row when preparing round 3. -/
def updateRow3 (df : List Row) (row : Row) : Row :=
  if groupHasAlloc df row.grupa && claimedB df row.grupa row.d3 then
    { row with d3 := "" }
  else row

/-- The preference updater: after a round, cascade the remaining
preference columns of every team away from domains its group already
claims.  Round 2 rewrites d2 and d3, round 3 rewrites d3; with no
allocated row at all the table is returned unchanged. -/
def update_preferences (df : List Row) (round_num : Nat) : List Row :=
  if !(df.any (fun r => !(r.alocare == ""))) then df
  else if round_num = 2 then df.map (updateRow2 df)
  else if round_num = 3 then df.map (updateRow3 df)
  else df

/-- The theme of one row: the fallback when the row is unallocated,
otherwise the first non-empty original preference item that starts with
the allocated domain, and the fallback when none does. -/
def themeOf (row : Row) : String :=
  if row.alocare = "" then manualTheme
  else
    match row.domenii.find? (fun t => !(t == "") && row.alocare.data.isPrefixOf t.data) with
    | some t => t
    | none => manualTheme

/-- The theme resolver: fill tema_proiect for every row. -/
def assign_themes (df : List Row) : List Row :=
  df.map (fun row => { row with tema_proiect := themeOf row })

/-- The table after round 1 of the pipeline. -/
def stage1 (rng : Nat → Nat → Nat → Nat) (raw : List RawRow) : List Row :=
  (allocate_round (rng (SEED + 1)) (preprocess_dataframe raw) Col.c1 1).1

/-- The table after round 2 of the pipeline. -/
def stage2 (rng : Nat → Nat → Nat → Nat) (raw : List RawRow) : List Row :=
  (allocate_round (rng (SEED + 2)) (update_preferences (stage1 rng raw) 2) Col.c2 2).1

/-- The table after round 3 of the pipeline. -/
def stage3 (rng : Nat → Nat → Nat → Nat) (raw : List RawRow) : List Row :=
  (allocate_round (rng (SEED + 3)) (update_preferences (stage2 rng raw) 3) Col.c3 3).1

/-- The full pipeline: preprocess, three rounds of allocation with
preference updates between them, theme resolution; also returns the
per-round allocation counts.  The random family is indexed by seed and
each round uses the stream at seed SEED plus the round number. -/
def run_pipeline (rng : Nat → Nat → Nat → Nat) (raw : List RawRow) :
    List Row × (Nat × Nat × Nat) :=
  (assign_themes (stage3 rng raw),
    ((allocate_round (rng (SEED + 1)) (preprocess_dataframe raw) Col.c1 1).2,
     (allocate_round (rng (SEED + 2)) (update_preferences (stage1 rng raw) 2) Col.c2 2).2,
     (allocate_round (rng (SEED + 3)) (update_preferences (stage2 rng raw) 3) Col.c3 3).2))

/-- The orchestrator around the pipeline, with the input boundary made
explicit: the first component is the returned value (none on failure),
the second the content of the output sink (none when nothing was
written), the third the diagnostic surfaced on standard error. -/
def allocate_projects (rng : Nat → Nat → Nat → Nat) (readResult : Except String (List RawRow)) :
    Option (List Row) × Option (List Row) × Option String :=
  match readResult with
  | Except.ok raw =>
    let out := (run_pipeline rng raw).1
    (some out, some out, none)
  | Except.error e => (none, none, some e)

/-- The (group, domain) partition key of the row at a position of the
table, for a given preference column. -/
def rowKey (df : List Row) (col : Col) (i : Nat) : String × String :=
  match df.get? i with
  | some r => (r.grupa, getCol r col)
  | none => ("", "")

/-- Within every group the non-empty allocated domains are pairwise
distinct across distinct rows. -/
def GroupNodup (df : List Row) : Prop :=
  ∀ i j ri rj, df.get? i = some ri → df.get? j = some rj → i ≠ j →
    ri.grupa = rj.grupa → ri.alocare ≠ "" → ri.alocare ≠ rj.alocare

/-- Left-packedness of the three deduplicated preference slots of a row:
an empty slot is never followed by a non-empty one. -/
def leftPacked (row : Row) : Prop :=
  (row.d1 = "" → row.d2 = "") ∧ (row.d2 = "" → row.d3 = "")

/-- The theme selection as the specification describes it: the first
original preference item whose domain prefix, the part before the first
hyphen, equals the allocated domain.  Stated from the words of the
claim, to be compared with the source function themeOf. -/
def themeSpecClaim (row : Row) : String :=
  if row.alocare = "" then manualTheme
  else
    match row.domenii.find? (fun t => prefixTok t == row.alocare) with
    | some t => t
    | none => manualTheme

/-- The origin invariant of a row: every non-empty preference slot and
the allocated domain are the domain prefix of some original preference
entry of the same row, and no entry contains a space. -/
def RowInv (r : Row) : Prop :=
  (r.d1 ≠ "" → ∃ e ∈ r.domenii, prefixTok e = r.d1) ∧
  (r.d2 ≠ "" → ∃ e ∈ r.domenii, prefixTok e = r.d2) ∧
  (r.d3 ≠ "" → ∃ e ∈ r.domenii, prefixTok e = r.d3) ∧
  (r.alocare ≠ "" → ∃ e ∈ r.domenii, prefixTok e = r.alocare) ∧
  (∀ e ∈ r.domenii, ' ' ∉ e.data)

/-- The origin invariant over a whole table. -/
def TableInv (df : List Row) : Prop :=
  ∀ i r, df.get? i = some r → RowInv r

/-! ## Basic helper lemmas -/

lemma mem_enumRows {l : List Row} : ∀ {n i : Nat} {r : Row},
    (i, r) ∈ enumRows n l ↔ ∃ k, i = n + k ∧ l.get? k = some r := by
  induction l with
  | nil => intro n i r; simp [enumRows]
  | cons x xs ih =>
    intro n i r
    simp only [enumRows, List.mem_cons, Prod.mk.injEq, ih]
    constructor
    · rintro (⟨hi, hr⟩ | ⟨k, hk, hg⟩)
      · exact ⟨0, by omega, by simp [hr]⟩
      · exact ⟨k + 1, by omega, by simpa using hg⟩
    · rintro ⟨k, hk, hg⟩
      cases k with
      | zero => left; constructor; omega; simpa using hg.symm
      | succ k => right; exact ⟨k, by omega, by simpa using hg⟩

lemma mem_enumRows0 {l : List Row} {i : Nat} {r : Row} :
    (i, r) ∈ enumRows 0 l ↔ l.get? i = some r := by
  rw [mem_enumRows]
  constructor
  · rintro ⟨k, hk, hg⟩
    have hik : i = k := by omega
    rw [hik]
    exact hg
  · intro h
    exact ⟨i, by omega, h⟩

lemma mem_candidatesOf {df : List Row} {col : Col} {i : Nat} {r : Row} :
    (i, r) ∈ candidatesOf df col ↔
      df.get? i = some r ∧ r.alocare = "" ∧ getCol r col ≠ "" := by
  simp only [candidatesOf, List.mem_filter, mem_enumRows0, Bool.and_eq_true,
    beq_iff_eq, Bool.not_eq_true', beq_eq_false_iff_ne, ne_eq]

lemma mem_partRows {df : List Row} {col : Col} {g d : String} {i : Nat} {r : Row} :
    (i, r) ∈ partRows df col g d ↔
      df.get? i = some r ∧ r.alocare = "" ∧ getCol r col ≠ "" ∧
        r.grupa = g ∧ getCol r col = d := by
  simp only [partRows, List.mem_filter, mem_candidatesOf, Bool.and_eq_true, beq_iff_eq]
  tauto

lemma claimedB_iff {df : List Row} {g d : String} :
    claimedB df g d = true ↔ ∃ r ∈ df, r.grupa = g ∧ r.alocare = d ∧ r.alocare ≠ "" := by
  simp only [claimedB, List.any_eq_true, Bool.and_eq_true, beq_iff_eq,
    Bool.not_eq_true', beq_eq_false_iff_ne, ne_eq]
  tauto

lemma groupHasAlloc_iff {df : List Row} {g : String} :
    groupHasAlloc df g = true ↔ ∃ r ∈ df, r.grupa = g ∧ r.alocare ≠ "" := by
  simp only [groupHasAlloc, List.any_eq_true, Bool.and_eq_true, beq_iff_eq,
    Bool.not_eq_true', beq_eq_false_iff_ne, ne_eq]

lemma insertLe_perm {α : Type} (le : α → α → Bool) (x : α) :
    ∀ l : List α, List.Perm (insertLe le x l) (x :: l) := by
  intro l
  induction l with
  | nil => simp [insertLe]
  | cons y ys ih =>
    simp only [insertLe]
    by_cases h : le x y = true
    · simp [h]
    · simp only [h, if_false]
      exact List.Perm.trans (List.Perm.cons y ih) (List.Perm.swap x y ys)

lemma sortLe_perm {α : Type} (le : α → α → Bool) :
    ∀ l : List α, List.Perm (sortLe le l) l := by
  intro l
  induction l with
  | nil => simp [sortLe]
  | cons x xs ih =>
    exact List.Perm.trans (insertLe_perm le x (sortLe le xs)) (List.Perm.cons x ih)

lemma keysOf_nodup (df : List Row) (col : Col) : (keysOf df col).Nodup :=
  List.Perm.nodup (sortLe_perm keyLe _).symm (List.nodup_dedup _)

lemma mem_keysOf {df : List Row} {col : Col} {g d : String} :
    (g, d) ∈ keysOf df col ↔
      ∃ p ∈ candidatesOf df col, p.2.grupa = g ∧ getCol p.2 col = d := by
  unfold keysOf
  rw [List.Perm.mem_iff (sortLe_perm keyLe _), List.mem_dedup, List.mem_map]
  constructor
  · rintro ⟨p, hp, hpe⟩
    exact ⟨p, hp, congrArg Prod.fst hpe, congrArg Prod.snd hpe⟩
  · rintro ⟨p, hp, h1, h2⟩
    exact ⟨p, hp, by rw [h1, h2]⟩

lemma setAlloc_get_self : ∀ (t : List Row) (i : Nat) (d rd : String),
    (setAlloc t i d rd).get? i =
      (t.get? i).map (fun r => { r with alocare := d, runda := rd }) := by
  intro t
  induction t with
  | nil => intro i d rd; simp [setAlloc]
  | cons r rs ih =>
    intro i d rd
    cases i with
    | zero => simp [setAlloc]
    | succ n => simpa [setAlloc] using ih n d rd

lemma setAlloc_get_other : ∀ (t : List Row) (i j : Nat) (d rd : String), j ≠ i →
    (setAlloc t i d rd).get? j = t.get? j := by
  intro t
  induction t with
  | nil => intro i j d rd _; simp [setAlloc]
  | cons r rs ih =>
    intro i j d rd hne
    cases i with
    | zero =>
      cases j with
      | zero => exact absurd rfl hne
      | succ m => simp [setAlloc]
    | succ n =>
      cases j with
      | zero => simp [setAlloc]
      | succ m => simpa [setAlloc] using ih n m d rd (by omega)

lemma applyPicks_get_not_mem {j : Nat} {rd : String} :
    ∀ (picks : List (Nat × String)) (t : List Row), (∀ d, (j, d) ∉ picks) →
    (applyPicks t picks rd).get? j = t.get? j := by
  intro picks
  induction picks with
  | nil => intro t _; simp [applyPicks]
  | cons p ps ih =>
    intro t hn
    have hj : j ≠ p.1 := by
      intro h
      subst h
      exact hn p.2 (by simp)
    have : applyPicks t (p :: ps) rd = applyPicks (setAlloc t p.1 p.2 rd) ps rd := rfl
    rw [this, ih _ (fun d hd => hn d (List.mem_cons_of_mem _ hd)),
      setAlloc_get_other _ _ _ _ _ hj]

lemma applyPicks_get_mem {j : Nat} {d rd : String} :
    ∀ (picks : List (Nat × String)) (t : List Row),
    List.Pairwise (fun p q => p.1 ≠ q.1) picks → (j, d) ∈ picks →
    (applyPicks t picks rd).get? j =
      (t.get? j).map (fun r => { r with alocare := d, runda := rd }) := by
  intro picks
  induction picks with
  | nil => intro t _ h; simp at h
  | cons p ps ih =>
    intro t hpw hmem
    have hstep : applyPicks t (p :: ps) rd = applyPicks (setAlloc t p.1 p.2 rd) ps rd := rfl
    rcases List.mem_cons.mp hmem with heq | htail
    · have hnot : ∀ d', (j, d') ∉ ps := by
        intro d' hd'
        have := (List.pairwise_cons.mp hpw).1 (j, d') hd'
        rw [← heq] at this
        exact this rfl
      rw [hstep, applyPicks_get_not_mem ps _ hnot, ← heq, setAlloc_get_self]
    · have hj : j ≠ p.1 := by
        intro h
        have := (List.pairwise_cons.mp hpw).1 (j, d) htail
        exact this h.symm
      rw [hstep, ih _ (List.pairwise_cons.mp hpw).2 htail, setAlloc_get_other _ _ _ _ _ hj]

lemma setAlloc_length : ∀ (t : List Row) (i : Nat) (d rd : String),
    (setAlloc t i d rd).length = t.length := by
  intro t
  induction t with
  | nil => intro i d rd; simp [setAlloc]
  | cons r rs ih =>
    intro i d rd
    cases i with
    | zero => simp [setAlloc]
    | succ n => simpa [setAlloc] using ih n d rd

/-! ## Lemmas about the partition scan -/

lemma getD_mem_of_mem {α : Type} {l : List α} {x : α} (hx : x ∈ l) (n : Nat) :
    l.getD n x ∈ l := by
  rw [List.getD_eq_get? l n x]
  cases hg : l.get? n with
  | none => simpa using hx
  | some y => simpa using List.get?_mem hg


lemma scanAux_cons {rng : Nat → Nat → Nat} {df : List Row} {col : Col}
    {g d : String} {ks extra : List (String × String)} {k : Nat} :
    scanAux rng df col ((g, d) :: ks) extra k =
      if claimedB df g d || extra.contains (g, d) then
        scanAux rng df col ks extra k
      else
        match partRows df col g d with
        | [] => scanAux rng df col ks extra k
        | [q] =>
          ((q.1, d) :: (scanAux rng df col ks ((g, d) :: extra) k).1,
            (scanAux rng df col ks ((g, d) :: extra) k).2)
        | q :: q2 :: qs =>
          ((((q :: q2 :: qs).getD (rng k (q :: q2 :: qs).length % (q :: q2 :: qs).length) q).1, d)
              :: (scanAux rng df col ks ((g, d) :: extra) (k + 1)).1,
            (scanAux rng df col ks ((g, d) :: extra) (k + 1)).2) := rfl

lemma scanAux_skip {rng : Nat → Nat → Nat} {df : List Row} {col : Col}
    {g d : String} {ks extra : List (String × String)} {k : Nat}
    (h : (claimedB df g d || extra.contains (g, d)) = true) :
    scanAux rng df col ((g, d) :: ks) extra k = scanAux rng df col ks extra k := by
  rw [scanAux_cons, if_pos h]

lemma scanAux_empty_part {rng : Nat → Nat → Nat} {df : List Row} {col : Col}
    {g d : String} {ks extra : List (String × String)} {k : Nat}
    (h : (claimedB df g d || extra.contains (g, d)) = false)
    (hp : partRows df col g d = []) :
    scanAux rng df col ((g, d) :: ks) extra k = scanAux rng df col ks extra k := by
  rw [scanAux_cons, if_neg (by rw [h]; exact Bool.false_ne_true), hp]

lemma scanAux_single {rng : Nat → Nat → Nat} {df : List Row} {col : Col}
    {g d : String} {ks extra : List (String × String)} {k : Nat} {q : Nat × Row}
    (h : (claimedB df g d || extra.contains (g, d)) = false)
    (hp : partRows df col g d = [q]) :
    scanAux rng df col ((g, d) :: ks) extra k =
      ((q.1, d) :: (scanAux rng df col ks ((g, d) :: extra) k).1,
        (scanAux rng df col ks ((g, d) :: extra) k).2) := by
  rw [scanAux_cons, if_neg (by rw [h]; exact Bool.false_ne_true), hp]

lemma scanAux_multi {rng : Nat → Nat → Nat} {df : List Row} {col : Col}
    {g d : String} {ks extra : List (String × String)} {k : Nat}
    {q q2 : Nat × Row} {qs : List (Nat × Row)}
    (h : (claimedB df g d || extra.contains (g, d)) = false)
    (hp : partRows df col g d = q :: q2 :: qs) :
    scanAux rng df col ((g, d) :: ks) extra k =
      ((((q :: q2 :: qs).getD (rng k (q :: q2 :: qs).length % (q :: q2 :: qs).length) q).1, d)
          :: (scanAux rng df col ks ((g, d) :: extra) (k + 1)).1,
        (scanAux rng df col ks ((g, d) :: extra) (k + 1)).2) := by
  rw [scanAux_cons, if_neg (by rw [h]; exact Bool.false_ne_true), hp]

lemma or_contains_eq_false {df : List Row} {g d : String} {extra : List (String × String)}
    (h : ¬(claimedB df g d || extra.contains (g, d)) = true) :
    (claimedB df g d || extra.contains (g, d)) = false := by
  cases hb : (claimedB df g d || extra.contains (g, d)) with
  | false => rfl
  | true => exact absurd hb h

lemma rowKey_of_pick {df : List Row} {col : Col} {i : Nat} {g d : String} {row : Row}
    (h1 : df.get? i = some row) (h4 : row.grupa = g) (h5 : getCol row col = d) :
    rowKey df col i = (g, d) := by
  unfold rowKey
  rw [h1]
  show (row.grupa, getCol row col) = (g, d)
  rw [h4, h5]

lemma scan_sound {rng : Nat → Nat → Nat} {df : List Row} {col : Col} :
    ∀ (ks extra : List (String × String)) (k : Nat) (i : Nat) (d : String),
    (i, d) ∈ (scanAux rng df col ks extra k).1 →
    ∃ g row, df.get? i = some row ∧ row.alocare = "" ∧ getCol row col ≠ "" ∧
      row.grupa = g ∧ getCol row col = d ∧ claimedB df g d = false ∧ (g, d) ∈ ks := by
  intro ks
  induction ks with
  | nil =>
    intro extra k i d h
    simp [scanAux] at h
  | cons hd tl ih =>
    intro extra k i d h
    obtain ⟨g0, d0⟩ := hd
    by_cases hcl : (claimedB df g0 d0 || extra.contains (g0, d0)) = true
    · rw [scanAux_skip hcl] at h
      obtain ⟨g, row, h1, h2, h3, h4, h5, h6, h7⟩ := ih extra k i d h
      exact ⟨g, row, h1, h2, h3, h4, h5, h6, List.mem_cons_of_mem _ h7⟩
    · have hclF := or_contains_eq_false hcl
      have hclf : claimedB df g0 d0 = false := (Bool.or_eq_false_iff.mp hclF).1
      rcases hpart : partRows df col g0 d0 with _ | ⟨q, _ | ⟨q2, qs⟩⟩
      · rw [scanAux_empty_part hclF hpart] at h
        obtain ⟨g, row, h1, h2, h3, h4, h5, h6, h7⟩ := ih extra k i d h
        exact ⟨g, row, h1, h2, h3, h4, h5, h6, List.mem_cons_of_mem _ h7⟩
      · rw [scanAux_single hclF hpart] at h
        rcases List.mem_cons.mp h with heq | htail
        · have hq : (q.1, q.2) ∈ partRows df col g0 d0 := by
            rw [Prod.mk.eta, hpart]
            simp
          obtain ⟨hq1, hq2, hq3, hq4, hq5⟩ := mem_partRows.mp hq
          have hi : i = q.1 := congrArg Prod.fst heq
          have hd : d = d0 := congrArg Prod.snd heq
          subst hi; subst hd
          exact ⟨g0, q.2, hq1, hq2, hq3, hq4, hq5, hclf, List.mem_cons_self _ _⟩
        · obtain ⟨g, row, h1, h2, h3, h4, h5, h6, h7⟩ := ih _ _ _ _ htail
          exact ⟨g, row, h1, h2, h3, h4, h5, h6, List.mem_cons_of_mem _ h7⟩
      · rw [scanAux_multi hclF hpart] at h
        rcases List.mem_cons.mp h with heq | htail
        · set c := (q :: q2 :: qs).getD (rng k (q :: q2 :: qs).length % (q :: q2 :: qs).length) q
            with hcdef
          have hchp : (c.1, c.2) ∈ partRows df col g0 d0 := by
            rw [Prod.mk.eta, hpart, hcdef]
            exact getD_mem_of_mem (List.mem_cons_self _ _) _
          obtain ⟨hq1, hq2, hq3, hq4, hq5⟩ := mem_partRows.mp hchp
          have hi : i = c.1 := congrArg Prod.fst heq
          have hd : d = d0 := congrArg Prod.snd heq
          subst hi; subst hd
          exact ⟨g0, c.2, hq1, hq2, hq3, hq4, hq5, hclf, List.mem_cons_self _ _⟩
        · obtain ⟨g, row, h1, h2, h3, h4, h5, h6, h7⟩ := ih _ _ _ _ htail
          exact ⟨g, row, h1, h2, h3, h4, h5, h6, List.mem_cons_of_mem _ h7⟩

lemma scan_keys_pairwise {rng : Nat → Nat → Nat} {df : List Row} {col : Col} :
    ∀ (ks extra : List (String × String)) (k : Nat), ks.Nodup →
    List.Pairwise (fun p q : Nat × String => rowKey df col p.1 ≠ rowKey df col q.1)
      (scanAux rng df col ks extra k).1 := by
  intro ks
  induction ks with
  | nil =>
    intro extra k _
    simp [scanAux]
  | cons hd tl ih =>
    intro extra k hnd
    obtain ⟨g0, d0⟩ := hd
    have hnd' : tl.Nodup := (List.nodup_cons.mp hnd).2
    have hhd : (g0, d0) ∉ tl := (List.nodup_cons.mp hnd).1
    have htailkey : ∀ (ex : List (String × String)) (k' : Nat) (p : Nat × String),
        p ∈ (scanAux rng df col tl ex k').1 → rowKey df col p.1 ≠ (g0, d0) := by
      intro ex k' p hp
      obtain ⟨g, row, h1, _, _, h4, h5, _, h7⟩ := scan_sound tl ex k' p.1 p.2 (by
        rw [Prod.mk.eta]; exact hp)
      rw [rowKey_of_pick h1 h4 h5]
      intro hcontra
      rw [hcontra] at h7
      exact hhd h7
    by_cases hcl : (claimedB df g0 d0 || extra.contains (g0, d0)) = true
    · rw [scanAux_skip hcl]
      exact ih extra k hnd'
    · have hclF := or_contains_eq_false hcl
      rcases hpart : partRows df col g0 d0 with _ | ⟨q, _ | ⟨q2, qs⟩⟩
      · rw [scanAux_empty_part hclF hpart]
        exact ih extra k hnd'
      · rw [scanAux_single hclF hpart]
        refine List.pairwise_cons.mpr ⟨?_, ih _ k hnd'⟩
        intro p hp
        have hq : (q.1, q.2) ∈ partRows df col g0 d0 := by
          rw [Prod.mk.eta, hpart]
          simp
        obtain ⟨hq1, _, _, hq4, hq5⟩ := mem_partRows.mp hq
        rw [rowKey_of_pick hq1 hq4 hq5]
        exact fun hcontra => htailkey _ k p hp hcontra.symm
      · rw [scanAux_multi hclF hpart]
        refine List.pairwise_cons.mpr ⟨?_, ih _ (k + 1) hnd'⟩
        intro p hp
        set c := (q :: q2 :: qs).getD (rng k (q :: q2 :: qs).length % (q :: q2 :: qs).length) q
          with hcdef
        have hchp : (c.1, c.2) ∈ partRows df col g0 d0 := by
          rw [Prod.mk.eta, hpart, hcdef]
          exact getD_mem_of_mem (List.mem_cons_self _ _) _
        obtain ⟨hq1, _, _, hq4, hq5⟩ := mem_partRows.mp hchp
        rw [rowKey_of_pick hq1 hq4 hq5]
        exact fun hcontra => htailkey _ (k + 1) p hp hcontra.symm

lemma scan_fst_pairwise {rng : Nat → Nat → Nat} {df : List Row} {col : Col}
    (ks extra : List (String × String)) (k : Nat) (hnd : ks.Nodup) :
    List.Pairwise (fun p q : Nat × String => p.1 ≠ q.1)
      (scanAux rng df col ks extra k).1 :=
  (scan_keys_pairwise ks extra k hnd).imp (fun h heq => h (by rw [heq]))

/-! ## Row-level lemmas about one allocation round -/

lemma allocate_round_frame {rng : Nat → Nat → Nat} {df : List Row} {col : Col} {rn : Nat}
    {i : Nat} {row : Row} (h : df.get? i = some row) (ha : row.alocare ≠ "") :
    ((allocate_round rng df col rn).1).get? i = some row := by
  unfold allocate_round
  by_cases hc : (candidatesOf df col).isEmpty = true
  · rw [if_pos hc]
    exact h
  · rw [if_neg hc]
    show (applyPicks df _ _).get? i = some row
    rw [applyPicks_get_not_mem _ _ ?_, h]
    intro d hd
    obtain ⟨g, row', h1, h2, _, _, _, _, _⟩ := scan_sound _ _ _ _ _ hd
    rw [h] at h1
    have hrr : row = row' := Option.some_inj.mp h1
    rw [hrr] at ha
    exact ha h2

lemma allocate_round_get_cases (rng : Nat → Nat → Nat) (df : List Row) (col : Col)
    (rn : Nat) (j : Nat) :
    ((allocate_round rng df col rn).1).get? j = df.get? j ∨
    (∃ row, df.get? j = some row ∧ row.alocare = "" ∧ getCol row col ≠ "" ∧
      claimedB df row.grupa (getCol row col) = false ∧
      (j, getCol row col) ∈ (scanAux rng df col (keysOf df col) [] 0).1 ∧
      ((allocate_round rng df col rn).1).get? j =
        some { row with alocare := getCol row col, runda := toString rn }) := by
  unfold allocate_round
  by_cases hc : (candidatesOf df col).isEmpty = true
  · rw [if_pos hc]
    left
    rfl
  · rw [if_neg hc]
    show ((applyPicks df (scanAux rng df col (keysOf df col) [] 0).1 (toString rn)).get? j = _) ∨ _
    by_cases hp : ∃ d, (j, d) ∈ (scanAux rng df col (keysOf df col) [] 0).1
    · obtain ⟨d, hd⟩ := hp
      obtain ⟨g, row, h1, h2, h3, h4, h5, h6, _⟩ := scan_sound _ _ _ _ _ hd
      right
      refine ⟨row, h1, h2, h3, ?_, ?_, ?_⟩
      · rw [h5, h4]
        exact h6
      · rw [h5]
        exact hd
      · rw [applyPicks_get_mem _ _ (scan_fst_pairwise _ _ _ (keysOf_nodup df col)) hd, h1, h5]
        rfl
    · left
      exact applyPicks_get_not_mem _ _ (fun d hd => hp ⟨d, hd⟩)

lemma applyPicks_length : ∀ (picks : List (Nat × String)) (t : List Row) (rd : String),
    (applyPicks t picks rd).length = t.length := by
  intro picks
  induction picks with
  | nil =>
    intro t rd
    rfl
  | cons p ps ih =>
    intro t rd
    show (applyPicks (setAlloc t p.1 p.2 rd) ps rd).length = t.length
    rw [ih, setAlloc_length]

lemma allocate_round_length (rng : Nat → Nat → Nat) (df : List Row) (col : Col) (rn : Nat) :
    ((allocate_round rng df col rn).1).length = df.length := by
  unfold allocate_round
  by_cases hc : (candidatesOf df col).isEmpty = true
  · rw [if_pos hc]
  · rw [if_neg hc]
    exact applyPicks_length _ _ _

/-! ## Row-level lemmas about the preference updater and the theme resolver -/

lemma updateRow2_shape (df : List Row) (row : Row) :
    updateRow2 df row = row ∨ updateRow2 df row = { row with d2 := row.d3, d3 := "" } ∨
      updateRow2 df row = { row with d2 := "", d3 := "" } := by
  unfold updateRow2
  by_cases h1 : (!(groupHasAlloc df row.grupa)) = true
  · rw [if_pos h1]
    left
    rfl
  · rw [if_neg h1]
    by_cases h2 : claimedB df row.grupa row.d2 = true
    · rw [if_pos h2]
      by_cases h3 : (!(row.d3 == "") && !(claimedB df row.grupa row.d3)) = true
      · rw [if_pos h3]
        right
        left
        rfl
      · rw [if_neg h3]
        right
        right
        rfl
    · rw [if_neg h2]
      left
      rfl

lemma updateRow3_shape (df : List Row) (row : Row) :
    updateRow3 df row = row ∨ updateRow3 df row = { row with d3 := "" } := by
  unfold updateRow3
  by_cases h1 : (groupHasAlloc df row.grupa && claimedB df row.grupa row.d3) = true
  · rw [if_pos h1]
    right
    rfl
  · rw [if_neg h1]
    left
    rfl

lemma update_preferences_frame {df : List Row} {rn : Nat} {i : Nat} {row : Row}
    (h : df.get? i = some row) :
    ∃ row', (update_preferences df rn).get? i = some row' ∧
      row'.echipa = row.echipa ∧ row'.grupa = row.grupa ∧ row'.d1 = row.d1 ∧
      row'.domenii = row.domenii ∧ row'.alocare = row.alocare ∧
      row'.runda = row.runda ∧ row'.tema_proiect = row.tema_proiect ∧
      (row'.d2 = row.d2 ∨ row'.d2 = row.d3 ∨ row'.d2 = "") ∧
      (row'.d3 = row.d3 ∨ row'.d3 = "") ∧
      (rn = 3 → row'.d2 = row.d2) ∧
      (rn ≠ 2 → rn ≠ 3 → row' = row) := by
  unfold update_preferences
  by_cases hany : (!(df.any fun r => !(r.alocare == ""))) = true
  · rw [if_pos hany]
    exact ⟨row, h, rfl, rfl, rfl, rfl, rfl, rfl, rfl, Or.inl rfl, Or.inl rfl,
      fun _ => rfl, fun _ _ => rfl⟩
  · rw [if_neg hany]
    by_cases h2 : rn = 2
    · rw [if_pos h2]
      refine ⟨updateRow2 df row, by rw [List.get?_map, h]; rfl, ?_⟩
      rcases updateRow2_shape df row with hs | hs | hs <;>
        rw [hs] <;>
        exact ⟨rfl, rfl, rfl, rfl, rfl, rfl, rfl, by tauto, by tauto,
          fun h3 => absurd h2 (by rw [h3]; exact fun hh => by cases hh), fun hn2 _ => absurd h2 hn2⟩
    · rw [if_neg h2]
      by_cases h3 : rn = 3
      · rw [if_pos h3]
        refine ⟨updateRow3 df row, by rw [List.get?_map, h]; rfl, ?_⟩
        rcases updateRow3_shape df row with hs | hs <;>
          rw [hs] <;>
          exact ⟨rfl, rfl, rfl, rfl, rfl, rfl, rfl, by tauto, by tauto,
            fun _ => rfl, fun _ hn3 => absurd h3 hn3⟩
      · rw [if_neg h3]
        exact ⟨row, h, rfl, rfl, rfl, rfl, rfl, rfl, rfl, Or.inl rfl, Or.inl rfl,
          fun _ => rfl, fun _ _ => rfl⟩

lemma assign_themes_get (df : List Row) (i : Nat) :
    (assign_themes df).get? i =
      (df.get? i).map (fun row => { row with tema_proiect := themeOf row }) := by
  unfold assign_themes
  rw [List.get?_map]

lemma any_alloc_false {df : List Row} (h : (df.any fun r => !(r.alocare == "")) = false) :
    ∀ g d, groupHasAlloc df g = false ∧ claimedB df g d = false := by
  intro g d
  constructor
  · cases hg : groupHasAlloc df g with
    | false => rfl
    | true =>
      exfalso
      obtain ⟨r, hr, _, hne⟩ := groupHasAlloc_iff.mp hg
      have hz : (df.any fun r => !(r.alocare == "")) = true :=
        List.any_eq_true.mpr ⟨r, hr, by simp [hne]⟩
      rw [h] at hz
      cases hz
  · cases hg : claimedB df g d with
    | false => rfl
    | true =>
      exfalso
      obtain ⟨r, hr, _, _, hne⟩ := claimedB_iff.mp hg
      have hz : (df.any fun r => !(r.alocare == "")) = true :=
        List.any_eq_true.mpr ⟨r, hr, by simp [hne]⟩
      rw [h] at hz
      cases hz

/-! ## Claim theorems -/

/-- Claim C8: when reading the input fails, the run aborts entirely: the
returned value is the error value, nothing is written to the output
sink, and the diagnostic carrying the error is surfaced. -/
theorem claim_c8 (rng : Nat → Nat → Nat → Nat) (e : String) :
    (allocate_projects rng (Except.error e)).1 = none ∧
    (allocate_projects rng (Except.error e)).2.1 = none ∧
    (allocate_projects rng (Except.error e)).2.2 = some e :=
  ⟨rfl, rfl, rfl⟩

/-- Claim C3: the pipeline consumes randomness only through the three
per-round streams seeded with SEED plus the round number, so two runs on
the same input whose random families agree at those three seeds produce
identical output tables and per-round counts; in particular two runs
with the same family are identical. -/
theorem claim_c3 (g g' : Nat → Nat → Nat → Nat) (raw : List RawRow)
    (h1 : g (SEED + 1) = g' (SEED + 1))
    (h2 : g (SEED + 2) = g' (SEED + 2))
    (h3 : g (SEED + 3) = g' (SEED + 3)) :
    run_pipeline g raw = run_pipeline g' raw := by
  unfold run_pipeline stage3 stage2 stage1
  rw [h1, h2, h3]

/-- Witness for C3 at a concrete input: two syntactically different
random families agreeing at the three used seeds. -/
theorem claim_c3_witness :
    run_pipeline (fun _ _ _ => 0) [⟨"X-1", "A-a"⟩, ⟨"X-2", "A-b"⟩, ⟨"X-3", "B-c"⟩] =
      run_pipeline (fun s _ _ => s - s) [⟨"X-1", "A-a"⟩, ⟨"X-2", "A-b"⟩, ⟨"X-3", "B-c"⟩] :=
  claim_c3 _ _ _ (by funext k n; show 0 = SEED + 1 - (SEED + 1); omega)
    (by funext k n; show 0 = SEED + 2 - (SEED + 2); omega)
    (by funext k n; show 0 = SEED + 3 - (SEED + 3); omega)

/-- Claim C2: a row whose allocated domain is already non-empty is left
entirely unchanged by any later allocation round, and its allocated
domain and round are left unchanged by the preference updater and the
theme resolver. -/
theorem claim_c2 {df : List Row} {i : Nat} {row : Row}
    (h : df.get? i = some row) (ha : row.alocare ≠ "") :
    (∀ (rng : Nat → Nat → Nat) (col : Col) (rn : Nat),
      ((allocate_round rng df col rn).1).get? i = some row) ∧
    (∀ rn, ∃ row', (update_preferences df rn).get? i = some row' ∧
      row'.alocare = row.alocare ∧ row'.runda = row.runda) ∧
    (∃ row', (assign_themes df).get? i = some row' ∧
      row'.alocare = row.alocare ∧ row'.runda = row.runda) := by
  refine ⟨fun rng col rn => allocate_round_frame h ha, fun rn => ?_, ?_⟩
  · obtain ⟨row', h1, _, _, _, _, h6, h7, _⟩ := @update_preferences_frame df rn i row h
    exact ⟨row', h1, h6, h7⟩
  · refine ⟨{ row with tema_proiect := themeOf row }, ?_, rfl, rfl⟩
    rw [assign_themes_get, h]
    rfl

/-- Witness for C2 at a concrete allocated row. -/
theorem claim_c2_witness :
    (∀ (rng : Nat → Nat → Nat) (col : Col) (rn : Nat),
      ((allocate_round rng [(⟨"T-1", "T", "A", "", "", ["A-x"], "A", "1", ""⟩ : Row)] col rn).1).get? 0 =
        some (⟨"T-1", "T", "A", "", "", ["A-x"], "A", "1", ""⟩ : Row)) ∧
    (∀ rn, ∃ row', (update_preferences [(⟨"T-1", "T", "A", "", "", ["A-x"], "A", "1", ""⟩ : Row)] rn).get? 0 =
        some row' ∧ row'.alocare = (⟨"T-1", "T", "A", "", "", ["A-x"], "A", "1", ""⟩ : Row).alocare ∧
        row'.runda = (⟨"T-1", "T", "A", "", "", ["A-x"], "A", "1", ""⟩ : Row).runda) ∧
    (∃ row', (assign_themes [(⟨"T-1", "T", "A", "", "", ["A-x"], "A", "1", ""⟩ : Row)]).get? 0 =
        some row' ∧ row'.alocare = (⟨"T-1", "T", "A", "", "", ["A-x"], "A", "1", ""⟩ : Row).alocare ∧
        row'.runda = (⟨"T-1", "T", "A", "", "", ["A-x"], "A", "1", ""⟩ : Row).runda) :=
  claim_c2 rfl (by decide)

/-- Claim C9: the preference updater only ever rewrites the d2 and d3
columns; every other field of every row survives any call unchanged,
d2 additionally survives the round-3 call, and a call for any other
round number leaves the row entirely unchanged. -/
theorem claim_c9 {df : List Row} {rn : Nat} {i : Nat} {row : Row}
    (h : df.get? i = some row) :
    ∃ row', (update_preferences df rn).get? i = some row' ∧
      row'.echipa = row.echipa ∧ row'.grupa = row.grupa ∧ row'.d1 = row.d1 ∧
      row'.domenii = row.domenii ∧ row'.alocare = row.alocare ∧
      row'.runda = row.runda ∧ row'.tema_proiect = row.tema_proiect ∧
      (rn = 3 → row'.d2 = row.d2) ∧ (rn ≠ 2 → rn ≠ 3 → row' = row) := by
  obtain ⟨row', h1, h2, h3, h4, h5, h6, h7, h8, _, _, h11, h12⟩ :=
    @update_preferences_frame df rn i row h
  exact ⟨row', h1, h2, h3, h4, h5, h6, h7, h8, h11, h12⟩

/-- Witness for C9 at a concrete table and row. -/
theorem claim_c9_witness :
    ∃ row', (update_preferences [(⟨"T-1", "T", "A", "B", "C", ["A-x", "B-y", "C-z"], "A", "1", ""⟩ : Row)] 2).get? 0 =
        some row' ∧
      row'.echipa = (⟨"T-1", "T", "A", "B", "C", ["A-x", "B-y", "C-z"], "A", "1", ""⟩ : Row).echipa ∧
      row'.grupa = (⟨"T-1", "T", "A", "B", "C", ["A-x", "B-y", "C-z"], "A", "1", ""⟩ : Row).grupa ∧
      row'.d1 = (⟨"T-1", "T", "A", "B", "C", ["A-x", "B-y", "C-z"], "A", "1", ""⟩ : Row).d1 ∧
      row'.domenii = (⟨"T-1", "T", "A", "B", "C", ["A-x", "B-y", "C-z"], "A", "1", ""⟩ : Row).domenii ∧
      row'.alocare = (⟨"T-1", "T", "A", "B", "C", ["A-x", "B-y", "C-z"], "A", "1", ""⟩ : Row).alocare ∧
      row'.runda = (⟨"T-1", "T", "A", "B", "C", ["A-x", "B-y", "C-z"], "A", "1", ""⟩ : Row).runda ∧
      row'.tema_proiect = (⟨"T-1", "T", "A", "B", "C", ["A-x", "B-y", "C-z"], "A", "1", ""⟩ : Row).tema_proiect ∧
      ((2 : Nat) = 3 → row'.d2 = (⟨"T-1", "T", "A", "B", "C", ["A-x", "B-y", "C-z"], "A", "1", ""⟩ : Row).d2) ∧
      ((2 : Nat) ≠ 2 → (2 : Nat) ≠ 3 →
        row' = (⟨"T-1", "T", "A", "B", "C", ["A-x", "B-y", "C-z"], "A", "1", ""⟩ : Row)) :=
  claim_c9 rfl

/-- Claim C6: per-team behaviour of the preference updater.  Preparing
round 2: with no allocation in the group d2 and d3 are unchanged; with
d2 claimed, d3 is promoted into d2 and cleared when d3 is non-empty and
unclaimed, and otherwise both are cleared; with d2 unclaimed both are
unchanged.  Preparing round 3: d3 is cleared exactly when the group has
allocations and d3 is claimed. -/
theorem claim_c6 {df : List Row} {i : Nat} {row : Row} (h : df.get? i = some row) :
    (∃ row₂, (update_preferences df 2).get? i = some row₂ ∧
      (groupHasAlloc df row.grupa = false → row₂.d2 = row.d2 ∧ row₂.d3 = row.d3) ∧
      (groupHasAlloc df row.grupa = true → claimedB df row.grupa row.d2 = true →
        row.d3 ≠ "" → claimedB df row.grupa row.d3 = false →
        row₂.d2 = row.d3 ∧ row₂.d3 = "") ∧
      (groupHasAlloc df row.grupa = true → claimedB df row.grupa row.d2 = true →
        (row.d3 = "" ∨ claimedB df row.grupa row.d3 = true) →
        row₂.d2 = "" ∧ row₂.d3 = "") ∧
      (groupHasAlloc df row.grupa = true → claimedB df row.grupa row.d2 = false →
        row₂.d2 = row.d2 ∧ row₂.d3 = row.d3)) ∧
    (∃ row₃, (update_preferences df 3).get? i = some row₃ ∧
      (groupHasAlloc df row.grupa = true → claimedB df row.grupa row.d3 = true →
        row₃.d3 = "") ∧
      ((groupHasAlloc df row.grupa = false ∨ claimedB df row.grupa row.d3 = false) →
        row₃.d3 = row.d3)) := by
  by_cases hany : (df.any fun r => !(r.alocare == "")) = true
  · constructor
    · refine ⟨updateRow2 df row, ?_, ?_, ?_, ?_, ?_⟩
      · unfold update_preferences
        rw [hany]
        show (df.map (updateRow2 df)).get? i = _
        rw [List.get?_map, h]
        rfl
      · intro hg
        simp [updateRow2, hg]
      · intro hg hd2 hd3 hd3c
        simp [updateRow2, hg, hd2, hd3c, hd3]
      · intro hg hd2 hor
        rcases hor with hor | hor <;> simp [updateRow2, hg, hd2, hor]
      · intro hg hd2
        simp [updateRow2, hg, hd2]
    · refine ⟨updateRow3 df row, ?_, ?_, ?_⟩
      · unfold update_preferences
        rw [hany]
        show (df.map (updateRow3 df)).get? i = _
        rw [List.get?_map, h]
        rfl
      · intro hg hd3
        simp [updateRow3, hg, hd3]
      · intro hor
        rcases hor with hor | hor <;> simp [updateRow3, hor]
  · have hanyF : (df.any fun r => !(r.alocare == "")) = false := by
      cases hz : (df.any fun r => !(r.alocare == "")) with
      | false => rfl
      | true => exact absurd hz hany
    have hgF := (any_alloc_false hanyF row.grupa row.d3).1
    have hupd : ∀ rn, update_preferences df rn = df := by
      intro rn
      unfold update_preferences
      rw [hanyF]
      rfl
    refine ⟨⟨row, by rw [hupd 2]; exact h, fun _ => ⟨rfl, rfl⟩, ?_, ?_, ?_⟩,
      ⟨row, by rw [hupd 3]; exact h, ?_, fun _ => rfl⟩⟩
    · intro hg
      rw [hgF] at hg
      cases hg
    · intro hg
      rw [hgF] at hg
      cases hg
    · intro hg
      rw [hgF] at hg
      cases hg
    · intro hg
      rw [hgF] at hg
      cases hg

/-- Witness for C6 at a concrete table: group T has claimed domain A,
the examined row has d2 = A (claimed) and d3 = B (unclaimed). -/
theorem claim_c6_witness :
    (∃ row₂, (update_preferences [(⟨"T-1", "T", "A", "", "", ["A-x"], "A", "1", ""⟩ : Row),
        (⟨"T-2", "T", "C", "A", "B", ["C-q", "A-y", "B-z"], "", "", ""⟩ : Row)] 2).get? 1 = some row₂ ∧
      (groupHasAlloc [(⟨"T-1", "T", "A", "", "", ["A-x"], "A", "1", ""⟩ : Row),
        (⟨"T-2", "T", "C", "A", "B", ["C-q", "A-y", "B-z"], "", "", ""⟩ : Row)] "T" = false →
        row₂.d2 = "A" ∧ row₂.d3 = "B") ∧
      (groupHasAlloc [(⟨"T-1", "T", "A", "", "", ["A-x"], "A", "1", ""⟩ : Row),
        (⟨"T-2", "T", "C", "A", "B", ["C-q", "A-y", "B-z"], "", "", ""⟩ : Row)] "T" = true →
        claimedB [(⟨"T-1", "T", "A", "", "", ["A-x"], "A", "1", ""⟩ : Row),
          (⟨"T-2", "T", "C", "A", "B", ["C-q", "A-y", "B-z"], "", "", ""⟩ : Row)] "T" "A" = true →
        "B" ≠ "" →
        claimedB [(⟨"T-1", "T", "A", "", "", ["A-x"], "A", "1", ""⟩ : Row),
          (⟨"T-2", "T", "C", "A", "B", ["C-q", "A-y", "B-z"], "", "", ""⟩ : Row)] "T" "B" = false →
        row₂.d2 = "B" ∧ row₂.d3 = "") ∧
      (groupHasAlloc [(⟨"T-1", "T", "A", "", "", ["A-x"], "A", "1", ""⟩ : Row),
        (⟨"T-2", "T", "C", "A", "B", ["C-q", "A-y", "B-z"], "", "", ""⟩ : Row)] "T" = true →
        claimedB [(⟨"T-1", "T", "A", "", "", ["A-x"], "A", "1", ""⟩ : Row),
          (⟨"T-2", "T", "C", "A", "B", ["C-q", "A-y", "B-z"], "", "", ""⟩ : Row)] "T" "A" = true →
        ("B" = "" ∨ claimedB [(⟨"T-1", "T", "A", "", "", ["A-x"], "A", "1", ""⟩ : Row),
          (⟨"T-2", "T", "C", "A", "B", ["C-q", "A-y", "B-z"], "", "", ""⟩ : Row)] "T" "B" = true) →
        row₂.d2 = "" ∧ row₂.d3 = "") ∧
      (groupHasAlloc [(⟨"T-1", "T", "A", "", "", ["A-x"], "A", "1", ""⟩ : Row),
        (⟨"T-2", "T", "C", "A", "B", ["C-q", "A-y", "B-z"], "", "", ""⟩ : Row)] "T" = true →
        claimedB [(⟨"T-1", "T", "A", "", "", ["A-x"], "A", "1", ""⟩ : Row),
          (⟨"T-2", "T", "C", "A", "B", ["C-q", "A-y", "B-z"], "", "", ""⟩ : Row)] "T" "A" = false →
        row₂.d2 = "A" ∧ row₂.d3 = "B")) ∧
    (∃ row₃, (update_preferences [(⟨"T-1", "T", "A", "", "", ["A-x"], "A", "1", ""⟩ : Row),
        (⟨"T-2", "T", "C", "A", "B", ["C-q", "A-y", "B-z"], "", "", ""⟩ : Row)] 3).get? 1 = some row₃ ∧
      (groupHasAlloc [(⟨"T-1", "T", "A", "", "", ["A-x"], "A", "1", ""⟩ : Row),
        (⟨"T-2", "T", "C", "A", "B", ["C-q", "A-y", "B-z"], "", "", ""⟩ : Row)] "T" = true →
        claimedB [(⟨"T-1", "T", "A", "", "", ["A-x"], "A", "1", ""⟩ : Row),
          (⟨"T-2", "T", "C", "A", "B", ["C-q", "A-y", "B-z"], "", "", ""⟩ : Row)] "T" "B" = true →
        row₃.d3 = "") ∧
      ((groupHasAlloc [(⟨"T-1", "T", "A", "", "", ["A-x"], "A", "1", ""⟩ : Row),
        (⟨"T-2", "T", "C", "A", "B", ["C-q", "A-y", "B-z"], "", "", ""⟩ : Row)] "T" = false ∨
        claimedB [(⟨"T-1", "T", "A", "", "", ["A-x"], "A", "1", ""⟩ : Row),
          (⟨"T-2", "T", "C", "A", "B", ["C-q", "A-y", "B-z"], "", "", ""⟩ : Row)] "T" "B" = false) →
        row₃.d3 = "B")) :=
  @claim_c6 [(⟨"T-1", "T", "A", "", "", ["A-x"], "A", "1", ""⟩ : Row),
    (⟨"T-2", "T", "C", "A", "B", ["C-q", "A-y", "B-z"], "", "", ""⟩ : Row)] 1
    (⟨"T-2", "T", "C", "A", "B", ["C-q", "A-y", "B-z"], "", "", ""⟩ : Row) rfl

lemma dedupTriple_facts (a b c : String) :
    (dedupTriple a b c).1 = a ∧
    ((dedupTriple a b c).2.1 = "" → (dedupTriple a b c).2.2 = "") ∧
    ((dedupTriple a b c).2.1 ≠ "" → (dedupTriple a b c).2.1 ≠ a) ∧
    ((dedupTriple a b c).2.2 ≠ "" →
      (dedupTriple a b c).2.2 ≠ a ∧ (dedupTriple a b c).2.2 ≠ (dedupTriple a b c).2.1) ∧
    ((dedupTriple a b c).2.1 ≠ "" → (dedupTriple a b c).2.1 = b ∨ (dedupTriple a b c).2.1 = c) ∧
    ((dedupTriple a b c).2.2 ≠ "" →
      (dedupTriple a b c).2.2 = c ∧ (dedupTriple a b c).2.1 = b) := by
  unfold dedupTriple
  by_cases h2 : b = a ∨ b = ""
  · rw [if_pos h2]
    by_cases h3 : c = a ∨ c = b ∨ c = ""
    · rw [if_pos h3]
      exact ⟨rfl, fun _ => rfl, fun hne => absurd rfl hne, fun hne => absurd rfl hne,
        fun hne => absurd rfl hne, fun hne => absurd rfl hne⟩
    · rw [if_neg h3]
      push_neg at h3
      obtain ⟨hca, hcb, hce⟩ := h3
      exact ⟨rfl, fun _ => rfl, fun _ => hca, fun hne => absurd rfl hne,
        fun _ => Or.inr rfl, fun hne => absurd rfl hne⟩
  · rw [if_neg h2]
    push_neg at h2
    obtain ⟨hba, hbe⟩ := h2
    by_cases h3 : c = a ∨ c = b ∨ c = ""
    · rw [if_pos h3]
      exact ⟨rfl, fun hb => absurd hb hbe, fun _ => hba, fun hne => absurd rfl hne,
        fun _ => Or.inl rfl, fun hne => absurd rfl hne⟩
    · rw [if_neg h3]
      push_neg at h3
      obtain ⟨hca, hcb, hce⟩ := h3
      exact ⟨rfl, fun hb => absurd hb hbe, fun _ => hba, fun _ => ⟨hca, hcb⟩,
        fun _ => Or.inl rfl, fun _ => ⟨rfl, rfl⟩⟩

/-- Claim C4 is refuted as stated (see the counterexample: a raw string
whose first item has an empty domain token yields a non-left-packed
slot list), and holds in the following amended form: whenever the first
parsed domain token is non-empty, the deduplicated slots d1, d2, d3 are
left-packed, pairwise distinct where non-empty, drawn from the parsed
tokens in their original order, and the preferences A, A, B produce the
deduplicated list A, B. -/
theorem claim_c4_amended (raw : RawRow)
    (hp1 : prefixTok ((parsedParts raw.optiuni).getD 0 "") ≠ "") :
    (preprocess_row raw).d1 = prefixTok ((parsedParts raw.optiuni).getD 0 "") ∧
    (preprocess_row raw).d1 ≠ "" ∧
    ((preprocess_row raw).d2 = "" → (preprocess_row raw).d3 = "") ∧
    ((preprocess_row raw).d2 ≠ "" → (preprocess_row raw).d2 ≠ (preprocess_row raw).d1) ∧
    ((preprocess_row raw).d3 ≠ "" → (preprocess_row raw).d3 ≠ (preprocess_row raw).d1 ∧
      (preprocess_row raw).d3 ≠ (preprocess_row raw).d2) ∧
    ((preprocess_row raw).d2 ≠ "" →
      (preprocess_row raw).d2 = prefixTok ((parsedParts raw.optiuni).getD 1 "") ∨
      (preprocess_row raw).d2 = prefixTok ((parsedParts raw.optiuni).getD 2 "")) ∧
    ((preprocess_row raw).d3 ≠ "" →
      (preprocess_row raw).d3 = prefixTok ((parsedParts raw.optiuni).getD 2 "") ∧
      (preprocess_row raw).d2 = prefixTok ((parsedParts raw.optiuni).getD 1 "")) ∧
    (preprocess_row ⟨"T-1", "A-x,A-y,B-z"⟩).d1 = "A" ∧
    (preprocess_row ⟨"T-1", "A-x,A-y,B-z"⟩).d2 = "B" ∧
    (preprocess_row ⟨"T-1", "A-x,A-y,B-z"⟩).d3 = "" := by
  obtain ⟨f1, f2, f3, f4, f5, f6⟩ := dedupTriple_facts
    (prefixTok ((parsedParts raw.optiuni).getD 0 ""))
    (prefixTok ((parsedParts raw.optiuni).getD 1 ""))
    (prefixTok ((parsedParts raw.optiuni).getD 2 ""))
  refine ⟨f1, ?_, f2, ?_, ?_, f5, f6, by decide, by decide, by decide⟩
  · intro h
    exact hp1 (f1.symm.trans h)
  · intro h hcontra
    exact f3 h (hcontra.trans f1)
  · intro h
    obtain ⟨g1, g2⟩ := f4 h
    exact ⟨fun hc => g1 (hc.trans f1), g2⟩

/-- Counterexample to claim C4 as stated: the raw preference string
that starts with a comma parses to an empty first domain token and a
non-empty second one, so the resulting slots are not left-packed. -/
theorem claim_c4_counterexample :
    ¬ leftPacked (preprocess_row ⟨"T-1", ",A-x"⟩) := by
  intro h
  have hd2 : (preprocess_row ⟨"T-1", ",A-x"⟩).d2 = "" := h.1 (by decide)
  exact absurd hd2 (by decide)

/-- Witness for the amended claim C4 at a concrete input. -/
theorem claim_c4_witness :
    prefixTok ((parsedParts "A-x,A-y,B-z").getD 0 "") ≠ "" ∧
      (preprocess_row ⟨"T-1", "A-x,A-y,B-z"⟩).d1 =
        prefixTok ((parsedParts "A-x,A-y,B-z").getD 0 "") :=
  ⟨by decide, (claim_c4_amended ⟨"T-1", "A-x,A-y,B-z"⟩ (by decide)).1⟩

lemma find?_first {α : Type} (p : α → Bool) :
    ∀ (l : List α) (k : Nat) (t : α), l.get? k = some t → p t = true →
    (∀ j t', j < k → l.get? j = some t' → p t' = false) →
    l.find? p = some t := by
  intro l
  induction l with
  | nil =>
    intro k t hk
    simp at hk
  | cons x xs ih =>
    intro k t hk hpt hearly
    cases k with
    | zero =>
      have hx : x = t := Option.some_inj.mp hk
      subst hx
      rw [List.find?_cons_of_pos _ hpt]
    | succ m =>
      have hpx : p x = false := hearly 0 x (Nat.succ_pos m) rfl
      rw [List.find?_cons_of_neg _ (by rw [hpx]; exact Bool.false_ne_true)]
      exact ih m t (by simpa using hk) hpt
        (fun j t' hj hg => hearly (j + 1) t' (by omega) (by simpa using hg))

/-- Claim C5 is refuted as stated (the resolver matches an entry when it
merely starts with the allocated domain string, not when its domain
prefix equals it; see the counterexample) and holds in the following
amended form: an unallocated team gets the manual fallback; an allocated
team gets the first non-empty original preference entry of which the
allocated domain is a string prefix, and the fallback when no entry
qualifies. -/
theorem claim_c5_amended {df : List Row} {i : Nat} {row : Row} (h : df.get? i = some row) :
    ∃ row', (assign_themes df).get? i = some row' ∧
      (row.alocare = "" → row'.tema_proiect = manualTheme) ∧
      (row.alocare ≠ "" →
        (∀ t ∈ row.domenii, t = "" ∨ row.alocare.data.isPrefixOf t.data = false) →
        row'.tema_proiect = manualTheme) ∧
      (∀ k t, row.alocare ≠ "" → row.domenii.get? k = some t → t ≠ "" →
        row.alocare.data.isPrefixOf t.data = true →
        (∀ j t', j < k → row.domenii.get? j = some t' →
          t' = "" ∨ row.alocare.data.isPrefixOf t'.data = false) →
        row'.tema_proiect = t) := by
  refine ⟨{ row with tema_proiect := themeOf row }, by rw [assign_themes_get, h]; rfl, ?_, ?_, ?_⟩
  · intro ha
    show themeOf row = manualTheme
    unfold themeOf
    rw [if_pos ha]
  · intro ha hall
    show themeOf row = manualTheme
    unfold themeOf
    rw [if_neg ha, List.find?_eq_none.mpr ?_]
    intro t ht hp
    rcases hall t ht with he | he
    · rw [he] at hp
      simp at hp
    · rw [he] at hp
      simp at hp
  · intro k t ha hk ht hpre hearly
    show themeOf row = t
    unfold themeOf
    rw [if_neg ha, find?_first _ row.domenii k t hk (by simp [ht, hpre]) ?_]
    intro j t' hj hg
    rcases hearly j t' hj hg with he | he
    · simp [he]
    · simp [he]

/-- Counterexample to claim C5 as stated: with allocated domain A and
original entries AB-x then A-y, the code picks AB-x (which starts with
A) while the claim prescribes A-y (the first entry whose domain prefix
equals A). -/
theorem claim_c5_counterexample :
    ((assign_themes [(⟨"T-1", "T", "AB", "A", "", ["AB-x", "A-y"], "A", "2", ""⟩ : Row)]).getD 0
        default).tema_proiect = "AB-x" ∧
    themeSpecClaim (⟨"T-1", "T", "AB", "A", "", ["AB-x", "A-y"], "A", "2", ""⟩ : Row) = "A-y" ∧
    ((assign_themes [(⟨"T-1", "T", "AB", "A", "", ["AB-x", "A-y"], "A", "2", ""⟩ : Row)]).getD 0
        default).tema_proiect ≠
      themeSpecClaim (⟨"T-1", "T", "AB", "A", "", ["AB-x", "A-y"], "A", "2", ""⟩ : Row) := by
  refine ⟨by decide, by decide, by decide⟩

/-- Witness for the amended claim C5 at a concrete one-row table. -/
theorem claim_c5_witness :
    ∃ row', (assign_themes [(⟨"T-1", "T", "AB", "A", "", ["AB-x", "A-y"], "A", "2", ""⟩ : Row)]).get? 0 =
        some row' ∧
      ((⟨"T-1", "T", "AB", "A", "", ["AB-x", "A-y"], "A", "2", ""⟩ : Row).alocare = "" →
        row'.tema_proiect = manualTheme) ∧
      ((⟨"T-1", "T", "AB", "A", "", ["AB-x", "A-y"], "A", "2", ""⟩ : Row).alocare ≠ "" →
        (∀ t ∈ (⟨"T-1", "T", "AB", "A", "", ["AB-x", "A-y"], "A", "2", ""⟩ : Row).domenii,
          t = "" ∨ (⟨"T-1", "T", "AB", "A", "", ["AB-x", "A-y"], "A", "2", ""⟩ : Row).alocare.data.isPrefixOf t.data = false) →
        row'.tema_proiect = manualTheme) ∧
      (∀ k t, (⟨"T-1", "T", "AB", "A", "", ["AB-x", "A-y"], "A", "2", ""⟩ : Row).alocare ≠ "" →
        (⟨"T-1", "T", "AB", "A", "", ["AB-x", "A-y"], "A", "2", ""⟩ : Row).domenii.get? k = some t →
        t ≠ "" →
        (⟨"T-1", "T", "AB", "A", "", ["AB-x", "A-y"], "A", "2", ""⟩ : Row).alocare.data.isPrefixOf t.data = true →
        (∀ j t', j < k → (⟨"T-1", "T", "AB", "A", "", ["AB-x", "A-y"], "A", "2", ""⟩ : Row).domenii.get? j = some t' →
          t' = "" ∨ (⟨"T-1", "T", "AB", "A", "", ["AB-x", "A-y"], "A", "2", ""⟩ : Row).alocare.data.isPrefixOf t'.data = false) →
        row'.tema_proiect = t) :=
  @claim_c5_amended [(⟨"T-1", "T", "AB", "A", "", ["AB-x", "A-y"], "A", "2", ""⟩ : Row)] 0
    (⟨"T-1", "T", "AB", "A", "", ["AB-x", "A-y"], "A", "2", ""⟩ : Row) rfl

lemma update_preferences_eq (df : List Row) (rn : Nat) :
    update_preferences df rn = df ∨ update_preferences df rn = df.map (updateRow2 df) ∨
      update_preferences df rn = df.map (updateRow3 df) := by
  unfold update_preferences
  by_cases h : (!(df.any fun r => !(r.alocare == ""))) = true
  · rw [if_pos h]
    left
    rfl
  · rw [if_neg h]
    by_cases h2 : rn = 2
    · rw [if_pos h2]
      right
      left
      rfl
    · rw [if_neg h2]
      by_cases h3 : rn = 3
      · rw [if_pos h3]
        right
        right
        rfl
      · rw [if_neg h3]
        left
        rfl

lemma updateRow2_keeps (df : List Row) (row : Row) :
    (updateRow2 df row).grupa = row.grupa ∧ (updateRow2 df row).alocare = row.alocare := by
  rcases updateRow2_shape df row with h | h | h <;> rw [h] <;> exact ⟨rfl, rfl⟩

lemma updateRow3_keeps (df : List Row) (row : Row) :
    (updateRow3 df row).grupa = row.grupa ∧ (updateRow3 df row).alocare = row.alocare := by
  rcases updateRow3_shape df row with h | h <;> rw [h] <;> exact ⟨rfl, rfl⟩

lemma GroupNodup_map {df : List Row} {f : Row → Row}
    (hf : ∀ r, (f r).grupa = r.grupa ∧ (f r).alocare = r.alocare)
    (h : GroupNodup df) : GroupNodup (df.map f) := by
  intro i j ri rj hi hj hij hg ha
  rw [List.get?_map] at hi hj
  obtain ⟨si, hsi, hfi⟩ := Option.map_eq_some'.mp hi
  obtain ⟨sj, hsj, hfj⟩ := Option.map_eq_some'.mp hj
  have hgi := (hf si).1
  have hai := (hf si).2
  have hgj := (hf sj).1
  have haj := (hf sj).2
  rw [← hfi, hai]
  rw [← hfj, haj]
  apply h i j si sj hsi hsj hij
  · rw [← hgi, ← hgj, hfi, hfj]
    exact hg
  · rw [← hai, hfi]
    exact ha

lemma update_preferences_GroupNodup {df : List Row} {rn : Nat}
    (h : GroupNodup df) : GroupNodup (update_preferences df rn) := by
  rcases update_preferences_eq df rn with he | he | he <;> rw [he]
  · exact h
  · exact GroupNodup_map (fun r => updateRow2_keeps df r) h
  · exact GroupNodup_map (fun r => updateRow3_keeps df r) h

lemma preprocess_GroupNodup (raw : List RawRow) : GroupNodup (preprocess_dataframe raw) := by
  intro i j ri rj hi hj hij hg ha
  exfalso
  unfold preprocess_dataframe at hi
  rw [List.get?_map] at hi
  obtain ⟨si, _, hfi⟩ := Option.map_eq_some'.mp hi
  apply ha
  rw [← hfi]
  rfl

lemma allocate_round_GroupNodup {rng : Nat → Nat → Nat} {df : List Row} {col : Col} {rn : Nat}
    (h : GroupNodup df) : GroupNodup ((allocate_round rng df col rn).1) := by
  intro i j ri rj hi hj hij hg ha heq
  rcases allocate_round_get_cases rng df col rn i with
    hci | ⟨rowi, hdfi, haloci, hcoli, hclmi, hmemi, hseti⟩ <;>
    rcases allocate_round_get_cases rng df col rn j with
      hcj | ⟨rowj, hdfj, halocj, hcolj, hclmj, hmemj, hsetj⟩
  · exact h i j ri rj (hci ▸ hi) (hcj ▸ hj) hij hg ha heq
  · have hri : df.get? i = some ri := hci ▸ hi
    have hrj : rj = { rowj with alocare := getCol rowj col, runda := toString rn } :=
      Option.some_inj.mp (hj.symm.trans hsetj)
    subst hrj
    have hcl : claimedB df rowj.grupa (getCol rowj col) = true :=
      claimedB_iff.mpr ⟨ri, List.get?_mem hri, hg, heq, ha⟩
    rw [hclmj] at hcl
    exact Bool.false_ne_true hcl
  · have hrj : df.get? j = some rj := hcj ▸ hj
    have hri : ri = { rowi with alocare := getCol rowi col, runda := toString rn } :=
      Option.some_inj.mp (hi.symm.trans hseti)
    subst hri
    have hane : rj.alocare ≠ "" := by
      rw [← heq]
      exact ha
    have hcl : claimedB df rowi.grupa (getCol rowi col) = true :=
      claimedB_iff.mpr ⟨rj, List.get?_mem hrj, hg.symm, heq.symm, hane⟩
    rw [hclmi] at hcl
    exact Bool.false_ne_true hcl
  · have hri : ri = { rowi with alocare := getCol rowi col, runda := toString rn } :=
      Option.some_inj.mp (hi.symm.trans hseti)
    have hrj : rj = { rowj with alocare := getCol rowj col, runda := toString rn } :=
      Option.some_inj.mp (hj.symm.trans hsetj)
    subst hri
    subst hrj
    have hpw := @scan_keys_pairwise rng df col (keysOf df col) [] 0 (keysOf_nodup df col)
    have hsym : Symmetric (fun p q : Nat × String => rowKey df col p.1 ≠ rowKey df col q.1) :=
      fun a b hab hba => hab hba.symm
    have hkne := List.Pairwise.forall hsym hpw hmemi hmemj
      (fun hc => hij (congrArg Prod.fst hc))
    apply hkne
    rw [rowKey_of_pick hdfi rfl rfl, rowKey_of_pick hdfj rfl rfl]
    rw [show rowi.grupa = rowj.grupa from hg, show getCol rowi col = getCol rowj col from heq]

/-- Claim C1: after each of the three allocation rounds of the pipeline,
no two distinct rows sharing a group id hold the same non-empty
allocated domain, whatever the input table and the random streams. -/
theorem claim_c1 (rng : Nat → Nat → Nat → Nat) (raw : List RawRow) :
    GroupNodup (stage1 rng raw) ∧ GroupNodup (stage2 rng raw) ∧ GroupNodup (stage3 rng raw) := by
  have h0 := preprocess_GroupNodup raw
  have h1 : GroupNodup (stage1 rng raw) := allocate_round_GroupNodup h0
  have h2 : GroupNodup (stage2 rng raw) :=
    allocate_round_GroupNodup (update_preferences_GroupNodup h1)
  have h3 : GroupNodup (stage3 rng raw) :=
    allocate_round_GroupNodup (update_preferences_GroupNodup h2)
  exact ⟨h1, h2, h3⟩

lemma contains_false {l : List (String × String)} {a : String × String} (h : a ∉ l) :
    l.contains a = false := by
  cases hc : l.contains a with
  | false => rfl
  | true => exact absurd (List.elem_iff.mp hc) h

lemma scan_singleton_picked {rng : Nat → Nat → Nat} {df : List Row} {col : Col}
    {g d : String} {i : Nat} {row : Row}
    (hpart : partRows df col g d = [(i, row)]) (hclaim : claimedB df g d = false) :
    ∀ (ks extra : List (String × String)) (k : Nat), ks.Nodup → (g, d) ∈ ks → (g, d) ∉ extra →
    (i, d) ∈ (scanAux rng df col ks extra k).1 := by
  intro ks
  induction ks with
  | nil =>
    intro extra k _ hmem _
    simp at hmem
  | cons hd tl ih =>
    intro extra k hnd hmem hnex
    obtain ⟨g0, d0⟩ := hd
    by_cases hgd : (g, d) = (g0, d0)
    · have hg0 : g0 = g := (congrArg Prod.fst hgd).symm
      have hd0 : d0 = d := (congrArg Prod.snd hgd).symm
      rw [hg0, hd0]
      have hclF : (claimedB df g d || extra.contains (g, d)) = false := by
        rw [hclaim, contains_false hnex]
        rfl
      rw [scanAux_single hclF hpart]
      exact List.mem_cons_self _ _
    · have hmem' : (g, d) ∈ tl := by
        rcases List.mem_cons.mp hmem with hh | ht
        · exact absurd hh hgd
        · exact ht
      have hnd' : tl.Nodup := (List.nodup_cons.mp hnd).2
      have hnex' : (g, d) ∉ (g0, d0) :: extra := by
        intro hx
        rcases List.mem_cons.mp hx with hh | ht
        · exact hgd hh
        · exact hnex ht
      by_cases hcl : (claimedB df g0 d0 || extra.contains (g0, d0)) = true
      · rw [scanAux_skip hcl]
        exact ih extra k hnd' hmem' hnex
      · have hclF := or_contains_eq_false hcl
        rcases hp : partRows df col g0 d0 with _ | ⟨q, _ | ⟨q2, qs⟩⟩
        · rw [scanAux_empty_part hclF hp]
          exact ih extra k hnd' hmem' hnex
        · rw [scanAux_single hclF hp]
          exact List.mem_cons_of_mem _ (ih _ k hnd' hmem' hnex')
        · rw [scanAux_multi hclF hp]
          exact List.mem_cons_of_mem _ (ih _ (k + 1) hnd' hmem' hnex')

/-- Claim C7: a (group, domain) candidate partition holding exactly one
team whose group does not already claim that domain always gets that
team allocated, for every random stream; and the scan step for such a
partition passes the draw counter on unchanged, so no random number is
drawn for it. -/
theorem claim_c7 (rng : Nat → Nat → Nat) (df : List Row) (col : Col) (rn : Nat)
    (g d : String) (i : Nat) (row : Row)
    (hpart : partRows df col g d = [(i, row)])
    (hclaim : claimedB df g d = false) :
    ((allocate_round rng df col rn).1).get? i =
      some { row with alocare := d, runda := toString rn } ∧
    (∀ (ks extra : List (String × String)) (k : Nat), (g, d) ∉ extra →
      scanAux rng df col ((g, d) :: ks) extra k =
        ((i, d) :: (scanAux rng df col ks ((g, d) :: extra) k).1,
          (scanAux rng df col ks ((g, d) :: extra) k).2)) := by
  have hqmem : (i, row) ∈ partRows df col g d := by
    rw [hpart]
    simp
  obtain ⟨hdf, haloc, hcne, hgr, hcd⟩ := mem_partRows.mp hqmem
  constructor
  · have hkey : (g, d) ∈ keysOf df col :=
      mem_keysOf.mpr ⟨(i, row), mem_candidatesOf.mpr ⟨hdf, haloc, hcne⟩, hgr, hcd⟩
    have hmempick : (i, d) ∈ (scanAux rng df col (keysOf df col) [] 0).1 :=
      scan_singleton_picked hpart hclaim (keysOf df col) [] 0 (keysOf_nodup df col)
        hkey (List.not_mem_nil _)
    have hne : ¬((candidatesOf df col).isEmpty = true) := by
      intro hemp
      have hc : (i, row) ∈ candidatesOf df col := mem_candidatesOf.mpr ⟨hdf, haloc, hcne⟩
      rw [List.isEmpty_iff.mp hemp] at hc
      exact List.not_mem_nil _ hc
    unfold allocate_round
    rw [if_neg hne]
    show (applyPicks df (scanAux rng df col (keysOf df col) [] 0).1 (toString rn)).get? i = _
    rw [applyPicks_get_mem _ _ (scan_fst_pairwise _ _ _ (keysOf_nodup df col)) hmempick, hdf]
    rfl
  · intro ks extra k hnex
    have hclF : (claimedB df g d || extra.contains (g, d)) = false := by
      rw [hclaim, contains_false hnex]
      rfl
    rw [scanAux_single hclF hpart]

/-- Witness for C7 at a concrete one-row table whose only candidate
forms a singleton partition. -/
theorem claim_c7_witness :
    ((allocate_round (fun _ _ => 0) [(⟨"T-1", "T", "A", "", "", ["A-x"], "", "", ""⟩ : Row)] Col.c1 1).1).get? 0 =
      some { (⟨"T-1", "T", "A", "", "", ["A-x"], "", "", ""⟩ : Row) with
        alocare := "A", runda := toString 1 } ∧
    (∀ (ks extra : List (String × String)) (k : Nat), ("T", "A") ∉ extra →
      scanAux (fun _ _ => 0) [(⟨"T-1", "T", "A", "", "", ["A-x"], "", "", ""⟩ : Row)] Col.c1
          (("T", "A") :: ks) extra k =
        ((0, "A") :: (scanAux (fun _ _ => 0) [(⟨"T-1", "T", "A", "", "", ["A-x"], "", "", ""⟩ : Row)]
            Col.c1 ks (("T", "A") :: extra) k).1,
          (scanAux (fun _ _ => 0) [(⟨"T-1", "T", "A", "", "", ["A-x"], "", "", ""⟩ : Row)]
            Col.c1 ks (("T", "A") :: extra) k).2)) :=
  claim_c7 (fun _ _ => 0) [(⟨"T-1", "T", "A", "", "", ["A-x"], "", "", ""⟩ : Row)] Col.c1 1
    "T" "A" 0 (⟨"T-1", "T", "A", "", "", ["A-x"], "", "", ""⟩ : Row) (by decide) (by decide)

lemma splitChars_cons (sep c : Char) (cs : List Char) :
    splitChars sep (c :: cs) =
      if c = sep then [] :: splitChars sep cs
      else
        match splitChars sep cs with
        | [] => [[c]]
        | p :: ps => (c :: p) :: ps := rfl

lemma splitChars_sub (sep : Char) : ∀ (l : List Char) (x : List Char),
    x ∈ splitChars sep l → ∀ a ∈ x, a ∈ l := by
  intro l
  induction l with
  | nil =>
    intro x hx a ha
    simp [splitChars] at hx
    subst hx
    simp at ha
  | cons c cs ih =>
    intro x hx a ha
    rw [splitChars_cons] at hx
    by_cases hc : c = sep
    · rw [if_pos hc] at hx
      rcases List.mem_cons.mp hx with hh | ht
      · subst hh
        simp at ha
      · exact List.mem_cons_of_mem _ (ih x ht a ha)
    · rw [if_neg hc] at hx
      rcases hsc : splitChars sep cs with _ | ⟨p, ps⟩
      · rw [hsc] at hx
        simp at hx
        subst hx
        simp at ha
        subst ha
        exact List.mem_cons_self _ _
      · rw [hsc] at hx
        rcases List.mem_cons.mp hx with hh | ht
        · subst hh
          rcases List.mem_cons.mp ha with haa | hap
          · subst haa
            exact List.mem_cons_self _ _
          · exact List.mem_cons_of_mem _ (ih p (by rw [hsc]; exact List.mem_cons_self _ _) a hap)
        · exact List.mem_cons_of_mem _
            (ih x (by rw [hsc]; exact List.mem_cons_of_mem _ ht) a ha)

lemma parsedParts_no_space (s : String) : ∀ e ∈ parsedParts s, ' ' ∉ e.data := by
  intro e he hsp
  unfold parsedParts at he
  rw [List.mem_map] at he
  obtain ⟨x, hx, hex⟩ := he
  rw [← hex] at hsp
  have hx' : (' ' : Char) ∈ x := hsp
  have hmem := splitChars_sub ',' _ x hx ' ' hx'
  rw [List.mem_filter] at hmem
  simp at hmem

lemma getD_mem_of_ne {l : List String} {n : Nat} (h : l.getD n "" ≠ "") : l.getD n "" ∈ l := by
  cases hg : l.get? n with
  | none =>
    exfalso
    apply h
    rw [List.getD_eq_get? l n "", hg]
    rfl
  | some y =>
    rw [List.getD_eq_get? l n "", hg]
    simpa using List.get?_mem hg

lemma preprocess_RowInv (raw : RawRow) : RowInv (preprocess_row raw) := by
  obtain ⟨f1, f2, f3, f4, f5, f6⟩ := dedupTriple_facts
    (prefixTok ((parsedParts raw.optiuni).getD 0 ""))
    (prefixTok ((parsedParts raw.optiuni).getD 1 ""))
    (prefixTok ((parsedParts raw.optiuni).getD 2 ""))
  have hmk : ∀ (n : Nat), prefixTok ((parsedParts raw.optiuni).getD n "") ≠ "" →
      ∃ e ∈ parsedParts raw.optiuni,
        prefixTok e = prefixTok ((parsedParts raw.optiuni).getD n "") := by
    intro n hp
    have hgd : (parsedParts raw.optiuni).getD n "" ≠ "" := by
      intro h0
      apply hp
      rw [h0]
      rfl
    exact ⟨(parsedParts raw.optiuni).getD n "", getD_mem_of_ne hgd, rfl⟩
  refine ⟨?_, ?_, ?_, ?_, ?_⟩
  · intro h
    have hp : prefixTok ((parsedParts raw.optiuni).getD 0 "") ≠ "" :=
      fun he => h (f1.trans he)
    obtain ⟨e, he, hpe⟩ := hmk 0 hp
    exact ⟨e, he, hpe.trans f1.symm⟩
  · intro h
    rcases f5 h with h5 | h5
    · have hp : prefixTok ((parsedParts raw.optiuni).getD 1 "") ≠ "" := by
        rw [← h5]
        exact h
      obtain ⟨e, he, hpe⟩ := hmk 1 hp
      exact ⟨e, he, hpe.trans h5.symm⟩
    · have hp : prefixTok ((parsedParts raw.optiuni).getD 2 "") ≠ "" := by
        rw [← h5]
        exact h
      obtain ⟨e, he, hpe⟩ := hmk 2 hp
      exact ⟨e, he, hpe.trans h5.symm⟩
  · intro h
    obtain ⟨h61, _⟩ := f6 h
    have hp : prefixTok ((parsedParts raw.optiuni).getD 2 "") ≠ "" := by
      rw [← h61]
      exact h
    obtain ⟨e, he, hpe⟩ := hmk 2 hp
    exact ⟨e, he, hpe.trans h61.symm⟩
  · intro h
    exact absurd rfl h
  · exact parsedParts_no_space raw.optiuni

lemma allocate_round_TableInv {rng : Nat → Nat → Nat} {df : List Row} {col : Col} {rn : Nat}
    (h : TableInv df) : TableInv ((allocate_round rng df col rn).1) := by
  intro i r hi
  rcases allocate_round_get_cases rng df col rn i with
    hc | ⟨row, hdf, _, hcne, _, _, hset⟩
  · exact h i r (hc ▸ hi)
  · have hr : r = { row with alocare := getCol row col, runda := toString rn } :=
      Option.some_inj.mp (hi.symm.trans hset)
    subst hr
    obtain ⟨i1, i2, i3, _, i5⟩ := h i row hdf
    refine ⟨i1, i2, i3, ?_, i5⟩
    intro _
    cases col with
    | c1 => exact i1 hcne
    | c2 => exact i2 hcne
    | c3 => exact i3 hcne

lemma update_preferences_TableInv {df : List Row} {rn : Nat}
    (h : TableInv df) : TableInv (update_preferences df rn) := by
  rcases update_preferences_eq df rn with he | he | he <;> rw [he]
  · exact h
  · intro i r hi
    rw [List.get?_map] at hi
    obtain ⟨s, hs, hfs⟩ := Option.map_eq_some'.mp hi
    obtain ⟨i1, i2, i3, i4, i5⟩ := h i s hs
    rcases updateRow2_shape df s with hx | hx | hx <;> rw [← hfs, hx]
    · exact ⟨i1, i2, i3, i4, i5⟩
    · exact ⟨i1, i3, fun hc => absurd rfl hc, i4, i5⟩
    · exact ⟨i1, fun hc => absurd rfl hc, fun hc => absurd rfl hc, i4, i5⟩
  · intro i r hi
    rw [List.get?_map] at hi
    obtain ⟨s, hs, hfs⟩ := Option.map_eq_some'.mp hi
    obtain ⟨i1, i2, i3, i4, i5⟩ := h i s hs
    rcases updateRow3_shape df s with hx | hx <;> rw [← hfs, hx]
    · exact ⟨i1, i2, i3, i4, i5⟩
    · exact ⟨i1, i2, fun hc => absurd rfl hc, i4, i5⟩

lemma isPrefixOf_of_pref : ∀ {l l' : List Char}, l <+: l' → l.isPrefixOf l' = true := by
  intro l
  induction l with
  | nil =>
    intro l' _
    cases l' <;> rfl
  | cons a as ih =>
    intro l' hp
    rcases hp with ⟨t, ht⟩
    rw [← ht]
    show (a :: as).isPrefixOf (a :: (as ++ t)) = true
    have hrec : as.isPrefixOf (as ++ t) = true := ih ⟨t, rfl⟩
    simp [List.isPrefixOf, hrec]

/-- Claim C10: in every full pipeline run, a team with a non-empty
allocated domain has some original preference entry whose domain prefix
equals that domain, its theme is never the manual fallback, and the
manual fallback is assigned exactly to the teams that were never
allocated. -/
theorem claim_c10 (rng : Nat → Nat → Nat → Nat) (raw : List RawRow) (i : Nat) (row : Row)
    (h : (run_pipeline rng raw).1.get? i = some row) :
    (row.alocare ≠ "" → (∃ e ∈ row.domenii, prefixTok e = row.alocare) ∧
      row.tema_proiect ≠ manualTheme) ∧
    (row.alocare = "" → row.tema_proiect = manualTheme) := by
  have h' : (assign_themes (stage3 rng raw)).get? i = some row := h
  rw [assign_themes_get] at h'
  obtain ⟨r0, hr0, hfr⟩ := Option.map_eq_some'.mp h'
  have hinv : TableInv (stage3 rng raw) := by
    unfold stage3 stage2 stage1
    apply allocate_round_TableInv
    apply update_preferences_TableInv
    apply allocate_round_TableInv
    apply update_preferences_TableInv
    apply allocate_round_TableInv
    intro k r hk
    unfold preprocess_dataframe at hk
    rw [List.get?_map] at hk
    obtain ⟨s, _, hfs⟩ := Option.map_eq_some'.mp hk
    rw [← hfs]
    exact preprocess_RowInv s
  obtain ⟨_, _, _, i4, i5⟩ := hinv i r0 hr0
  rw [← hfr]
  constructor
  · intro ha
    have har0 : r0.alocare ≠ "" := ha
    obtain ⟨e, he, hpe⟩ := i4 har0
    refine ⟨⟨e, he, hpe⟩, ?_⟩
    show themeOf r0 ≠ manualTheme
    unfold themeOf
    rw [if_neg har0]
    have hene : (e == "") = false := by
      have : e ≠ "" := by
        intro h0
        apply har0
        rw [← hpe, h0]
        rfl
      simp [this]
    have hpref : r0.alocare.data.isPrefixOf e.data = true := by
      have hdata : r0.alocare.data = e.data.takeWhile (fun c => c ≠ '-') := by
        rw [← hpe]
        rfl
      rw [hdata]
      exact isPrefixOf_of_pref (List.takeWhile_prefix _)
    have hsome : (r0.domenii.find?
        (fun t => !(t == "") && r0.alocare.data.isPrefixOf t.data)).isSome = true :=
      List.find?_isSome.mpr ⟨e, he, by rw [hene, hpref]; rfl⟩
    obtain ⟨x, hx⟩ := Option.isSome_iff_exists.mp hsome
    rw [hx]
    have hxm := List.mem_of_find?_eq_some hx
    intro hcontra
    apply i5 x hxm
    have hxx : x = manualTheme := hcontra
    rw [hxx]
    decide
  · intro ha
    show themeOf r0 = manualTheme
    unfold themeOf
    rw [if_pos ha]

/-- Witness for C10 at a concrete one-team pipeline run. -/
theorem claim_c10_witness :
    (run_pipeline (fun _ _ _ => 0) [⟨"T-1", "A-x"⟩]).1.get? 0 =
      some (⟨"T-1", "T", "A", "", "", ["A-x"], "A", "1", "A-x"⟩ : Row) ∧
    ((⟨"T-1", "T", "A", "", "", ["A-x"], "A", "1", "A-x"⟩ : Row).alocare ≠ "" →
      (∃ e ∈ (⟨"T-1", "T", "A", "", "", ["A-x"], "A", "1", "A-x"⟩ : Row).domenii,
        prefixTok e = (⟨"T-1", "T", "A", "", "", ["A-x"], "A", "1", "A-x"⟩ : Row).alocare) ∧
      (⟨"T-1", "T", "A", "", "", ["A-x"], "A", "1", "A-x"⟩ : Row).tema_proiect ≠ manualTheme) ∧
    ((⟨"T-1", "T", "A", "", "", ["A-x"], "A", "1", "A-x"⟩ : Row).alocare = "" →
      (⟨"T-1", "T", "A", "", "", ["A-x"], "A", "1", "A-x"⟩ : Row).tema_proiect = manualTheme) := by
  have hp : (run_pipeline (fun _ _ _ => 0) [⟨"T-1", "A-x"⟩]).1.get? 0 =
      some (⟨"T-1", "T", "A", "", "", ["A-x"], "A", "1", "A-x"⟩ : Row) := by decide
  exact ⟨hp, claim_c10 (fun _ _ _ => 0) [⟨"T-1", "A-x"⟩] 0
    (⟨"T-1", "T", "A", "", "", ["A-x"], "A", "1", "A-x"⟩ : Row) hp⟩
